import Mathlib

/-!
Shallow embedding of the openMSX save-state archive framework (serialize.hh)
and proofs of the specified properties.

Machine model: a raw machine pointer, a typeid tag and a byte are all
represented as natural numbers; a C++ `unsigned` is 4 bytes wide and its
in-memory image is modelled little-endian (the binary backend is explicitly
non-portable and stores native-endian raw bytes, so the concrete byte order is
a free parameter of the model; only encode/decode consistency matters).
A primitive value handed to the binary backend is represented by its raw
in-memory byte image (a byte list of length sizeof).
-/

namespace openmsx

/-- Raw in-memory image of a C++ `unsigned` (4 bytes, value taken mod 2^32),
as produced by MemOutputArchive::save calling put(&t, sizeof(t)). -/
def encodeWord (w : Nat) : List Nat :=
  [w % 2 ^ 32 % 256,
   w % 2 ^ 32 / 256 % 256,
   w % 2 ^ 32 / 2 ^ 16 % 256,
   w % 2 ^ 32 / 2 ^ 24 % 256]

/-- Reassemble a C++ `unsigned` from its first 4 raw bytes, as done by
MemInputArchive::load reading sizeof(unsigned) bytes in place. -/
def decodeWord : List Nat → Nat
  | b0 :: b1 :: b2 :: b3 :: _ => b0 + 256 * b1 + 2 ^ 16 * b2 + 2 ^ 24 * b3
  | _ => 0

/-- Modelled from the spec: OutputBuffer (MemBuffer.hh, not under src/) — the
growable byte buffer backing MemOutputArchive; insert appends bytes,
getPosition is the current write offset, insertAt back-patches bytes at a
previously recorded offset. -/
structure OutputBuffer where
  data : List Nat
deriving DecidableEq

/-- Modelled from the spec: OutputBuffer::insert appends len bytes. -/
def OutputBuffer.insert (b : OutputBuffer) (bytes : List Nat) : OutputBuffer :=
  ⟨b.data ++ bytes⟩

/-- Modelled from the spec: OutputBuffer::getPosition, the current offset. -/
def OutputBuffer.getPosition (b : OutputBuffer) : Nat :=
  b.data.length

/-- Modelled from the spec: OutputBuffer::insertAt overwrites bytes at a given
offset ("back-patches that placeholder with the measured byte span"). -/
def OutputBuffer.insertAt (b : OutputBuffer) (pos : Nat) (bytes : List Nat) : OutputBuffer :=
  ⟨b.data.take pos ++ bytes ++ b.data.drop (pos + bytes.length)⟩

/-- MemOutputArchive: the binary saver. `buffer` is the backing OutputBuffer,
`openSections` the stack of open section offsets (std::vector, push_back at
the end). -/
structure MemOutputArchive where
  buffer : OutputBuffer
  openSections : List Nat
deriving DecidableEq

/-- MemOutputArchive::put: if (len) buffer.insert(data, len). -/
def MemOutputArchive.put (a : MemOutputArchive) (bytes : List Nat) : MemOutputArchive :=
  if bytes.length ≠ 0 then { a with buffer := a.buffer.insert bytes } else a

/-- MemOutputArchive::save(t): put(&t, sizeof(t)) — appends the raw in-memory
byte image of the primitive. -/
def MemOutputArchive.save (a : MemOutputArchive) (t : List Nat) : MemOutputArchive :=
  a.put t

/-- MemOutputArchive::save for an `unsigned` value: its 4-byte image. -/
def MemOutputArchive.saveWord (a : MemOutputArchive) (w : Nat) : MemOutputArchive :=
  a.save (encodeWord w)

/-- MemOutputArchive::serialize_blob: put(data, len) — the tag is ignored,
exactly len bytes are memcopied. -/
def MemOutputArchive.serialize_blob (a : MemOutputArchive) (data : List Nat) : MemOutputArchive :=
  a.put data

/-- MemOutputArchive::beginSection: save a placeholder `unsigned skip = 0`,
then record the position just past it on the openSections stack. -/
def MemOutputArchive.beginSection (a : MemOutputArchive) : MemOutputArchive :=
  let a1 := a.saveWord 0
  { a1 with openSections := a1.openSections ++ [a1.buffer.getPosition] }

/-- MemOutputArchive::endSection: pop the matching begin position, compute
skip = endPos - beginPos and back-patch the placeholder at
beginPos - sizeof(unsigned). The source asserts openSections is nonempty;
the empty case is modelled as a no-op (it is outside every use below). -/
def MemOutputArchive.endSection (a : MemOutputArchive) : MemOutputArchive :=
  match a.openSections.getLast? with
  | none => a
  | some beginPos =>
    let endPos := a.buffer.getPosition
    let skip := endPos - beginPos
    { buffer := a.buffer.insertAt (beginPos - 4) (encodeWord skip),
      openSections := a.openSections.dropLast }

/-- Fold MemOutputArchive::save over a list of primitive byte images (the body
of a section is some sequence of save calls). -/
def MemOutputArchive.saveAll (a : MemOutputArchive) (writes : List (List Nat)) : MemOutputArchive :=
  writes.foldl MemOutputArchive.save a

/-- Modelled from the spec: InputBuffer (MemBuffer.hh, not under src/) — a
cursor over the saved byte sequence; read copies the next n bytes and
advances, skip advances without decoding. -/
structure InputBuffer where
  data : List Nat
  pos : Nat
deriving DecidableEq

/-- Modelled from the spec: InputBuffer::read — yield the next n bytes and
advance the cursor by n. -/
def InputBuffer.read (b : InputBuffer) (n : Nat) : List Nat × InputBuffer :=
  ((b.data.drop b.pos).take n, { b with pos := b.pos + n })

/-- Modelled from the spec: InputBuffer::skip — advance the cursor by n bytes
without decoding. -/
def InputBuffer.skip (b : InputBuffer) (n : Nat) : InputBuffer :=
  { b with pos := b.pos + n }

/-- MemInputArchive: the binary loader over an InputBuffer. -/
structure MemInputArchive where
  buffer : InputBuffer
deriving DecidableEq

/-- MemInputArchive::get: if (len) buffer.read(data, len). -/
def MemInputArchive.get (a : MemInputArchive) (n : Nat) : List Nat × MemInputArchive :=
  if n ≠ 0 then
    let r := a.buffer.read n
    (r.1, ⟨r.2⟩)
  else ([], a)

/-- MemInputArchive::load(t): get(&t, sizeof(t)) — reads exactly the sizeof(t)
raw bytes of the primitive back in place. -/
def MemInputArchive.load (a : MemInputArchive) (n : Nat) : List Nat × MemInputArchive :=
  a.get n

/-- MemInputArchive::load for an `unsigned`: read 4 bytes and reassemble. -/
def MemInputArchive.loadWord (a : MemInputArchive) : Nat × MemInputArchive :=
  let r := a.get 4
  (decodeWord r.1, r.2)

/-- MemInputArchive::serialize_blob: get(data, len) — exactly len bytes. -/
def MemInputArchive.serialize_blob (a : MemInputArchive) (n : Nat) : List Nat × MemInputArchive :=
  a.get n

/-- MemInputArchive::skipSection: load the stored `unsigned num`; if skip,
additionally advance the cursor by num bytes. -/
def MemInputArchive.skipSection (a : MemInputArchive) (skip : Bool) : MemInputArchive :=
  let r := a.loadWord
  if skip then ⟨r.2.buffer.skip r.1⟩ else r.2

/-- Modelled from the spec: shared_ptr (shared_ptr.hh, not under src/) — the
reference-counted shared-ownership wrapper: reset() empties it, reset(r)
takes fresh ownership of r under a new control block, copy assignment shares
the control block of the source. `ctrl` identifies the control block; two
wrappers are the same shared instance exactly when their control blocks
coincide, and the share count of a control block is the number of live
wrappers on it. -/
structure SharedPtr where
  ptr : Option Nat
  ctrl : Option Nat
deriving DecidableEq

/-- Empty shared-ownership wrapper (after shared_ptr::reset()). -/
def SharedPtr.empty : SharedPtr :=
  ⟨none, none⟩

/-- Load-pass shared-ownership state of InputArchiveBase2: `slots` are the
destination shared_ptr fields of the graph being reconstructed (indexed by
position), `sharedPtrMap` maps a raw reconstructed handle to the slot holding
the wrapper that first claimed it (the source stores &s), and `nextCtrl`
supplies fresh control-block names for reset(r). -/
structure LoadShareState where
  slots : List SharedPtr
  sharedPtrMap : List (Nat × Nat)
  nextCtrl : Nat
deriving DecidableEq

/-- InputArchiveBase2::resetSharedPtr(s, r): null r resets s to empty; an
unseen raw handle makes s take ownership (s.reset(r)) and registers
sharedPtrMap[r] = &s; a seen raw handle copies the registered wrapper
(s = *s2). Slot index i plays the role of &s. -/
def LoadShareState.resetSharedPtr (st : LoadShareState) (i : Nat) (r : Option Nat) : LoadShareState :=
  match r with
  | none => { st with slots := st.slots.set i SharedPtr.empty }
  | some raw =>
    match List.lookup raw st.sharedPtrMap with
    | none =>
      { slots := st.slots.set i ⟨some raw, some st.nextCtrl⟩,
        sharedPtrMap := (raw, i) :: st.sharedPtrMap,
        nextCtrl := st.nextCtrl + 1 }
    | some j =>
      { st with slots := st.slots.set i (st.slots.getD j SharedPtr.empty) }

/-- Number of wrapper slots sharing control block c (shared_ptr use_count). -/
def LoadShareState.shareCount (st : LoadShareState) (c : Nat) : Nat :=
  (st.slots.filter (fun s => s.ctrl == some c)).length

/-- Static type of a C++ value as the ID machinery sees it: its typeid tag and
whether it is polymorphic (is_polymorphic<T>::value). -/
structure CppType where
  tag : Nat
  polymorphic : Bool
deriving DecidableEq

/-- Identity state of OutputArchiveBase2: idMap keyed by (pointer, typeid) for
ordinary types, polyIdMap keyed by pointer alone for polymorphic types,
lastId the last assigned ID (IDs are dense and start at 1; 0 is reserved for
null / not-found). -/
structure OutputIdState where
  idMap : List ((Nat × Nat) × Nat)
  polyIdMap : List (Nat × Nat)
  lastId : Nat
deriving DecidableEq

/-- Modelled from the spec: OutputArchiveBase2::generateID1 (serialize.cc, not
under src/) — assign the next dense ID to pointer p in polyIdMap. -/
def OutputIdState.generateID1 (st : OutputIdState) (p : Nat) : Nat × OutputIdState :=
  (st.lastId + 1,
   { st with polyIdMap := (p, st.lastId + 1) :: st.polyIdMap, lastId := st.lastId + 1 })

/-- Modelled from the spec: OutputArchiveBase2::generateID2 (serialize.cc, not
under src/) — assign the next dense ID to key (p, typeInfo) in idMap. -/
def OutputIdState.generateID2 (st : OutputIdState) (p : Nat) (t : Nat) : Nat × OutputIdState :=
  (st.lastId + 1,
   { st with idMap := ((p, t), st.lastId + 1) :: st.idMap, lastId := st.lastId + 1 })

/-- Modelled from the spec: OutputArchiveBase2::getID1 (serialize.cc, not under
src/) — look up pointer p in polyIdMap; 0 when absent (0 is reserved). -/
def OutputIdState.getID1 (st : OutputIdState) (p : Nat) : Nat :=
  (List.lookup p st.polyIdMap).getD 0

/-- Modelled from the spec: OutputArchiveBase2::getID2 (serialize.cc, not under
src/) — look up key (p, typeInfo) in idMap; 0 when absent. -/
def OutputIdState.getID2 (st : OutputIdState) (p : Nat) (t : Nat) : Nat :=
  (List.lookup (p, t) st.idMap).getD 0

/-- OutputArchiveBase2::generateId(p): dispatch on is_polymorphic<T> — the
pointer alone keys polymorphic types, the pair (pointer, typeid(T)) keys
ordinary types. -/
def generateId (T : CppType) (p : Nat) (st : OutputIdState) : Nat × OutputIdState :=
  if T.polymorphic then st.generateID1 p else st.generateID2 p T.tag

/-- OutputArchiveBase2::getId(p): same key derivation as generateId. -/
def getId (T : CppType) (p : Nat) (st : OutputIdState) : Nat :=
  if T.polymorphic then st.getID1 p else st.getID2 p T.tag

/-- Serialization failures relevant to polymorphic loading. -/
inductive SerializeError where
  | unknownDiscriminator (d : String)
deriving DecidableEq

/-- Modelled from the spec: PolymorphicInitializerRegistry (serialize_meta, not
under src/) — a per-base-type table from discriminator to the registered
initializer result; init looks the read discriminator up and an unregistered
discriminator is a hard failure, never a default instance or base-class
fallback. -/
def PolymorphicInitializerRegistry.init {α : Type} (registry : List (String × α)) (d : String) : Except SerializeError α :=
  match List.lookup d registry with
  | none => .error (.unknownDiscriminator d)
  | some f => .ok f

/-- InputArchiveBase::serializePolymorphic on a loader: the discriminator d has
been read from the stream and is resolved through the registry. -/
def serializePolymorphicLoad {α : Type} (registry : List (String × α)) (d : String) : Except SerializeError α :=
  PolymorphicInitializerRegistry.init registry d

/-- OutputArchiveBase::serializeWithID(tag, t): beginTag, Saver with
saveId = true, endTag. The CRTP template is modelled by passing the concrete
archive operations (state type σ, value type τ) as parameters. -/
def serializeWithID {σ τ : Type} (beginTag endTag : String → σ → σ) (saver : σ → τ → Bool → σ) (tag : String) (st : σ) (t : τ) : σ :=
  endTag tag (saver (beginTag tag st) t true)

/-- OutputArchiveBase::serializeWithID(tag, t, t1): the saver archives ignore
the extra global-constructor argument and forward to serializeWithID. -/
def serializeWithID1 {σ τ α : Type} (beginTag endTag : String → σ → σ) (saver : σ → τ → Bool → σ) (tag : String) (st : σ) (t : τ) (_t1 : α) : σ :=
  serializeWithID beginTag endTag saver tag st t

/-- OutputArchiveBase::serializeWithID(tag, t, t1, t2): forwards likewise. -/
def serializeWithID2 {σ τ α β : Type} (beginTag endTag : String → σ → σ) (saver : σ → τ → Bool → σ) (tag : String) (st : σ) (t : τ) (_t1 : α) (_t2 : β) : σ :=
  serializeWithID beginTag endTag saver tag st t

/-- OutputArchiveBase::serializeWithID(tag, t, t1, t2, t3): forwards likewise. -/
def serializeWithID3 {σ τ α β γ : Type} (beginTag endTag : String → σ → σ) (saver : σ → τ → Bool → σ) (tag : String) (st : σ) (t : τ) (_t1 : α) (_t2 : β) (_t3 : γ) : σ :=
  serializeWithID beginTag endTag saver tag st t

/-- The four concrete archive classes. -/
inductive ArchiveKind where
  | memOutput
  | memInput
  | xmlOutput
  | xmlInput
deriving DecidableEq

/-- ArchiveBase default: needVersion() returns true. -/
def ArchiveBase.needVersion : Bool :=
  true

/-- ArchiveBase default: translateEnumToString() returns false. -/
def ArchiveBase.translateEnumToString : Bool :=
  false

/-- ArchiveBase default: canHaveOptionalAttributes() returns false. -/
def ArchiveBase.canHaveOptionalAttributes : Bool :=
  false

/-- ArchiveBase default: canCountChildren() returns false. -/
def ArchiveBase.canCountChildren : Bool :=
  false

/-- OutputArchiveBase2::isLoader() returns false. -/
def OutputArchiveBase2.isLoader : Bool :=
  false

/-- InputArchiveBase2::isLoader() returns true. -/
def InputArchiveBase2.isLoader : Bool :=
  true

/-- MemOutputArchive overrides needVersion() to false. -/
def MemOutputArchive.needVersion : Bool :=
  false

/-- MemInputArchive overrides needVersion() to false. -/
def MemInputArchive.needVersion : Bool :=
  false

/-- XmlOutputArchive overrides translateEnumToString() to true. -/
def XmlOutputArchive.translateEnumToString : Bool :=
  true

/-- XmlOutputArchive overrides canHaveOptionalAttributes() to true. -/
def XmlOutputArchive.canHaveOptionalAttributes : Bool :=
  true

/-- XmlOutputArchive overrides canCountChildren() to true. -/
def XmlOutputArchive.canCountChildren : Bool :=
  true

/-- XmlInputArchive overrides translateEnumToString() to true. -/
def XmlInputArchive.translateEnumToString : Bool :=
  true

/-- XmlInputArchive overrides canHaveOptionalAttributes() to true. -/
def XmlInputArchive.canHaveOptionalAttributes : Bool :=
  true

/-- XmlInputArchive overrides canCountChildren() to true. -/
def XmlInputArchive.canCountChildren : Bool :=
  true

/-- CRTP resolution of needVersion() per concrete archive: the Mem archives
override it, the Xml archives inherit the ArchiveBase default. -/
def needVersion : ArchiveKind → Bool
  | .memOutput => MemOutputArchive.needVersion
  | .memInput => MemInputArchive.needVersion
  | .xmlOutput => ArchiveBase.needVersion
  | .xmlInput => ArchiveBase.needVersion

/-- CRTP resolution of translateEnumToString() per concrete archive. -/
def translateEnumToString : ArchiveKind → Bool
  | .memOutput => ArchiveBase.translateEnumToString
  | .memInput => ArchiveBase.translateEnumToString
  | .xmlOutput => XmlOutputArchive.translateEnumToString
  | .xmlInput => XmlInputArchive.translateEnumToString

/-- CRTP resolution of canHaveOptionalAttributes() per concrete archive. -/
def canHaveOptionalAttributes : ArchiveKind → Bool
  | .memOutput => ArchiveBase.canHaveOptionalAttributes
  | .memInput => ArchiveBase.canHaveOptionalAttributes
  | .xmlOutput => XmlOutputArchive.canHaveOptionalAttributes
  | .xmlInput => XmlInputArchive.canHaveOptionalAttributes

/-- CRTP resolution of canCountChildren() per concrete archive. -/
def canCountChildren : ArchiveKind → Bool
  | .memOutput => ArchiveBase.canCountChildren
  | .memInput => ArchiveBase.canCountChildren
  | .xmlOutput => XmlOutputArchive.canCountChildren
  | .xmlInput => XmlInputArchive.canCountChildren

/-- CRTP resolution of isLoader() per concrete archive. -/
def isLoader : ArchiveKind → Bool
  | .memOutput => OutputArchiveBase2.isLoader
  | .memInput => InputArchiveBase2.isLoader
  | .xmlOutput => OutputArchiveBase2.isLoader
  | .xmlInput => InputArchiveBase2.isLoader

/-- The operations whose misuse the framework guards with assert(false). -/
inductive ArchiveOp where
  | skipSection
  | beginSection
  | endSection
  | hasAttribute
  | countChildren
deriving DecidableEq

/-- Whether the member function that CRTP resolution selects for this archive
and operation has assert(false) as its body. skipSection:
OutputArchiveBase2 asserts, both input archives implement it. beginSection
and endSection: InputArchiveBase2 asserts, both output archives implement
them. hasAttribute and countChildren: the ArchiveBase defaults assert and
only XmlInputArchive overrides them (XmlOutputArchive does not, although its
capability probes return true). -/
def hitsAssert : ArchiveKind → ArchiveOp → Bool
  | .memOutput, .skipSection => true
  | .xmlOutput, .skipSection => true
  | .memInput, .skipSection => false
  | .xmlInput, .skipSection => false
  | .memOutput, .beginSection => false
  | .xmlOutput, .beginSection => false
  | .memInput, .beginSection => true
  | .xmlInput, .beginSection => true
  | .memOutput, .endSection => false
  | .xmlOutput, .endSection => false
  | .memInput, .endSection => true
  | .xmlInput, .endSection => true
  | .memOutput, .hasAttribute => true
  | .memInput, .hasAttribute => true
  | .xmlOutput, .hasAttribute => true
  | .xmlInput, .hasAttribute => false
  | .memOutput, .countChildren => true
  | .memInput, .countChildren => true
  | .xmlOutput, .countChildren => true
  | .xmlInput, .countChildren => false

/-- The precondition exactly as the claim states it: section operations only in
their stated direction (skipSection on loaders, beginSection/endSection on
savers), and capability queries only on archives whose probe is true. -/
def specAllowed (a : ArchiveKind) : ArchiveOp → Bool
  | .skipSection => isLoader a
  | .beginSection => !isLoader a
  | .endSection => !isLoader a
  | .hasAttribute => canHaveOptionalAttributes a
  | .countChildren => canCountChildren a

/-- The amended precondition: like specAllowed, but hasAttribute and
countChildren additionally require a loader archive (the output portable
archive reports both capabilities yet implements neither query). -/
def specAllowedAmended (a : ArchiveKind) : ArchiveOp → Bool
  | .skipSection => isLoader a
  | .beginSection => !isLoader a
  | .endSection => !isLoader a
  | .hasAttribute => canHaveOptionalAttributes a && isLoader a
  | .countChildren => canCountChildren a && isLoader a

/-! Helper lemmas. -/

theorem decodeWord_encodeWord (w : Nat) : decodeWord (encodeWord w) = w % 2 ^ 32 := by
  simp only [encodeWord, decodeWord]
  omega

theorem encodeWord_length (w : Nat) : (encodeWord w).length = 4 :=
  rfl

theorem put_eq (a : MemOutputArchive) (t : List Nat) :
    a.put t = ⟨⟨a.buffer.data ++ t⟩, a.openSections⟩ := by
  by_cases h : t.length = 0
  · have ht : t = [] := List.length_eq_zero.mp h
    subst ht
    simp [MemOutputArchive.put]
  · simp [MemOutputArchive.put, h, OutputBuffer.insert]

theorem saveAll_eq (ws : List (List Nat)) :
    ∀ a : MemOutputArchive, a.saveAll ws = ⟨⟨a.buffer.data ++ ws.flatten⟩, a.openSections⟩ := by
  induction ws with
  | nil =>
    intro a
    cases a with
    | mk buf secs => cases buf; simp [MemOutputArchive.saveAll]
  | cons w ws ih =>
    intro a
    have h1 : a.saveAll (w :: ws) = (a.save w).saveAll ws := rfl
    rw [h1, ih, MemOutputArchive.save, put_eq]
    simp

theorem get_exact (pre t rest : List Nat) :
    MemInputArchive.get ⟨⟨pre ++ t ++ rest, pre.length⟩⟩ t.length
      = (t, ⟨⟨pre ++ t ++ rest, pre.length + t.length⟩⟩) := by
  have h1 : (pre ++ t ++ rest).drop pre.length = t ++ rest := by
    rw [List.append_assoc]
    exact List.drop_left pre (t ++ rest)
  by_cases ht : t.length = 0
  · have h2 : t = [] := List.length_eq_zero.mp ht
    subst h2
    simp [MemInputArchive.get]
  · simp [MemInputArchive.get, ht, InputBuffer.read, h1, List.take_left]

theorem getD_set_self {α : Type} (l : List α) (i : Nat) (v d : α) (h : i < l.length) :
    (l.set i v).getD i d = v := by
  simp [List.getD, List.getD_eq_getElem?_getD, List.getElem?_set_self, h]

/-! Claim theorems. -/

/-- C7: the capability probes are backend-fixed constants. needVersion() is
false on both binary (Mem) archives and true (the inherited ArchiveBase
default) on both portable (Xml) archives; translateEnumToString(),
canHaveOptionalAttributes() and canCountChildren() are true on both portable
archives and false (the inherited default) on the binary archives; and
isLoader() is true exactly on the input archives. -/
theorem capability_probes_constants :
    needVersion .memOutput = false ∧ needVersion .memInput = false ∧
    needVersion .xmlOutput = true ∧ needVersion .xmlInput = true ∧
    translateEnumToString .xmlOutput = true ∧ translateEnumToString .xmlInput = true ∧
    translateEnumToString .memOutput = false ∧ translateEnumToString .memInput = false ∧
    canHaveOptionalAttributes .xmlOutput = true ∧ canHaveOptionalAttributes .xmlInput = true ∧
    canHaveOptionalAttributes .memOutput = false ∧ canHaveOptionalAttributes .memInput = false ∧
    canCountChildren .xmlOutput = true ∧ canCountChildren .xmlInput = true ∧
    canCountChildren .memOutput = false ∧ canCountChildren .memInput = false ∧
    isLoader .memInput = true ∧ isLoader .xmlInput = true ∧
    isLoader .memOutput = false ∧ isLoader .xmlOutput = false := by
  decide

/-- C6: on an output archive the serializeWithID overloads taking one, two or
three extra global-constructor arguments forward to the plain
serializeWithID, so the extra arguments are ignored on save and the
resulting archive state (hence the produced stream) is identical. -/
theorem serializeWithID_extraArgs_ignored_on_save {σ τ α β γ : Type}
    (beginTag endTag : String → σ → σ) (saver : σ → τ → Bool → σ)
    (tag : String) (st : σ) (t : τ) (t1 : α) (t2 : β) (t3 : γ) :
    serializeWithID1 beginTag endTag saver tag st t t1
        = serializeWithID beginTag endTag saver tag st t ∧
    serializeWithID2 beginTag endTag saver tag st t t1 t2
        = serializeWithID beginTag endTag saver tag st t ∧
    serializeWithID3 beginTag endTag saver tag st t t1 t2 t3
        = serializeWithID beginTag endTag saver tag st t :=
  ⟨rfl, rfl, rfl⟩

/-- C9: on the binary backend skipSection always consumes the 4-byte length
field: with skip = false the cursor advances exactly past the field to the
first byte of the section content, and with skip = true it additionally
advances by the stored length; the underlying data is never modified. -/
theorem memSkipSection_consumes_length_field (d : List Nat) (p : Nat) :
    MemInputArchive.skipSection ⟨⟨d, p⟩⟩ false = ⟨⟨d, p + 4⟩⟩ ∧
    MemInputArchive.skipSection ⟨⟨d, p⟩⟩ true
      = ⟨⟨d, p + 4 + decodeWord ((d.drop p).take 4)⟩⟩ := by
  constructor <;>
    simp [MemInputArchive.skipSection, MemInputArchive.loadWord, MemInputArchive.get,
      InputBuffer.read, InputBuffer.skip]

/-- C8 counterexample: calling hasAttribute on XmlOutputArchive satisfies the
claim's stated precondition — the canHaveOptionalAttributes probe of that
archive is true — yet CRTP resolution still selects the assert(false) body
of ArchiveBase::hasAttribute, so the assertion branch is reachable under the
claim's preconditions. -/
theorem capability_query_assert_reachable :
    specAllowed .xmlOutput .hasAttribute = true
      ∧ hitsAssert .xmlOutput .hasAttribute = true := by
  decide

/-- C8 (amended): skipSection on any output archive, beginSection/endSection on
any input archive, and hasAttribute/countChildren anywhere except on
XmlInputArchive hit assert(false), and exactly those calls: under the
amended preconditions — section operations only in their stated direction,
and hasAttribute/countChildren only on loader archives whose probe is
true — the assertion branches are unreachable. -/
theorem assert_branches_characterized :
    ∀ (a : ArchiveKind) (op : ArchiveOp), hitsAssert a op = !specAllowedAmended a op := by
  intro a op
  cases a <;> cases op <;> rfl

/-- C4: loading a polymorphic value resolves the stream discriminator through
the per-base-type registry; an unregistered discriminator is a hard failure
carrying the discriminator, a registered one yields exactly the registered
initializer, and a successful result is only ever a registered one — there
is no silent fallback or default construction. -/
theorem serializePolymorphic_unknown_discriminator_fails {α : Type}
    (registry : List (String × α)) (d : String) :
    (List.lookup d registry = none →
      serializePolymorphicLoad registry d = .error (.unknownDiscriminator d)) ∧
    (∀ v, List.lookup d registry = some v →
      serializePolymorphicLoad registry d = .ok v) ∧
    (∀ v, serializePolymorphicLoad registry d = .ok v →
      List.lookup d registry = some v) := by
  refine ⟨?_, ?_, ?_⟩
  · intro h
    simp [serializePolymorphicLoad, PolymorphicInitializerRegistry.init, h]
  · intro v h
    simp [serializePolymorphicLoad, PolymorphicInitializerRegistry.init, h]
  · intro v h
    simp only [serializePolymorphicLoad, PolymorphicInitializerRegistry.init] at h
    cases hl : List.lookup d registry with
    | none => simp [hl] at h
    | some w =>
      simp [hl] at h
      simp [h]

/-- C4 witness: loading discriminator b against a registry holding only a
fails with unknownDiscriminator b. -/
theorem serializePolymorphic_unknown_discriminator_fails_witness :
    serializePolymorphicLoad ([("a", 1)] : List (String × Nat)) "b"
      = .error (.unknownDiscriminator "b") :=
  (serializePolymorphic_unknown_discriminator_fails [("a", 1)] "b").1 (by decide)

/-- C10: resetSharedPtr with a null raw handle resets the destination wrapper
to the empty wrapper and leaves the shared-ownership table and the
control-block supply unchanged: a null shared-ownership reference
round-trips to an empty wrapper and is never registered in the table. -/
theorem resetSharedPtr_null (st : LoadShareState) (i : Nat) :
    (st.resetSharedPtr i none).slots = st.slots.set i SharedPtr.empty ∧
    (st.resetSharedPtr i none).sharedPtrMap = st.sharedPtrMap ∧
    (st.resetSharedPtr i none).nextCtrl = st.nextCtrl :=
  ⟨rfl, rfl, rfl⟩

/-- C1: within one load pass, the first resetSharedPtr call for a non-null raw
handle r makes the destination wrapper take ownership of r under a fresh
control block and registers that wrapper in the shared-ownership table under
r; every later call with the same r copies the registered wrapper (leaving
table and control-block supply unchanged); consequently two fields loaded
from references to the same raw handle b end up as the same shared instance
with share count 2. -/
theorem resetSharedPtr_first_registers_later_copies
    (st : LoadShareState) (i j : Nat) (r : Nat) (hi : i < st.slots.length) :
    (List.lookup r st.sharedPtrMap = none →
      (st.resetSharedPtr i (some r)).slots.getD i SharedPtr.empty
          = ⟨some r, some st.nextCtrl⟩ ∧
      List.lookup r (st.resetSharedPtr i (some r)).sharedPtrMap = some i) ∧
    (List.lookup r st.sharedPtrMap = some j →
      (st.resetSharedPtr i (some r)).slots.getD i SharedPtr.empty
          = st.slots.getD j SharedPtr.empty ∧
      (st.resetSharedPtr i (some r)).sharedPtrMap = st.sharedPtrMap ∧
      (st.resetSharedPtr i (some r)).nextCtrl = st.nextCtrl) ∧
    (∀ b : Nat,
      (((⟨[SharedPtr.empty, SharedPtr.empty], [], 0⟩ : LoadShareState).resetSharedPtr
          0 (some b)).resetSharedPtr 1 (some b)).slots
        = [⟨some b, some 0⟩, ⟨some b, some 0⟩] ∧
      LoadShareState.shareCount
        (((⟨[SharedPtr.empty, SharedPtr.empty], [], 0⟩ : LoadShareState).resetSharedPtr
          0 (some b)).resetSharedPtr 1 (some b)) 0 = 2) := by
  refine ⟨?_, ?_, ?_⟩
  · intro h
    constructor
    · simp only [LoadShareState.resetSharedPtr, h]
      exact getD_set_self st.slots i _ _ hi
    · simp [LoadShareState.resetSharedPtr, h, List.lookup]
  · intro h
    refine ⟨?_, ?_, ?_⟩
    · simp only [LoadShareState.resetSharedPtr, h]
      exact getD_set_self st.slots i _ _ hi
    · simp [LoadShareState.resetSharedPtr, h]
    · simp [LoadShareState.resetSharedPtr, h]
  · intro b
    constructor
    · simp [LoadShareState.resetSharedPtr, List.lookup, SharedPtr.empty]
    · simp [LoadShareState.resetSharedPtr, List.lookup, SharedPtr.empty,
        LoadShareState.shareCount, List.filter]

/-- C1 witness: with one empty slot and an empty table, resetSharedPtr for raw
handle 7 takes ownership under control block 0 and registers slot 0. -/
theorem resetSharedPtr_first_registers_later_copies_witness :
    ((⟨[SharedPtr.empty], [], 0⟩ : LoadShareState).resetSharedPtr 0 (some 7)).slots.getD
        0 SharedPtr.empty = ⟨some 7, some 0⟩ ∧
    List.lookup 7 ((⟨[SharedPtr.empty], [], 0⟩ : LoadShareState).resetSharedPtr
        0 (some 7)).sharedPtrMap = some 0 :=
  (resetSharedPtr_first_registers_later_copies ⟨[SharedPtr.empty], [], 0⟩ 0 0 7
    (by decide)).1 (by decide)

/-- C2: generateId and getId derive the identity key identically — pointer
alone for a polymorphic type, (pointer, typeid) pair otherwise — so for
every type and pointer, getId after generateId on the same archive state
returns exactly the assigned ID; and generating IDs for two distinct
non-polymorphic static types at the same address yields distinct IDs, each
still retrievable under its own key. -/
theorem generateId_getId_consistent
    (st : OutputIdState) (T : CppType) (p t1 t2 : Nat) (hne : t1 ≠ t2) :
    getId T p (generateId T p st).2 = (generateId T p st).1 ∧
    ((st.generateID2 p t1).2.generateID2 p t2).1 ≠ (st.generateID2 p t1).1 ∧
    OutputIdState.getID2 ((st.generateID2 p t1).2.generateID2 p t2).2 p t1
        = (st.generateID2 p t1).1 ∧
    OutputIdState.getID2 ((st.generateID2 p t1).2.generateID2 p t2).2 p t2
        = ((st.generateID2 p t1).2.generateID2 p t2).1 := by
  have hb : ((p, t1) == (p, t2)) = false := by
    apply beq_eq_false_iff_ne.mpr
    simp [hne]
  refine ⟨?_, ?_, ?_, ?_⟩
  · by_cases h : T.polymorphic <;>
      simp [generateId, getId, h, OutputIdState.generateID1, OutputIdState.generateID2,
        OutputIdState.getID1, OutputIdState.getID2, List.lookup]
  · simp [OutputIdState.generateID2]
  · simp [OutputIdState.generateID2, OutputIdState.getID2, List.lookup, hb]
  · simp [OutputIdState.generateID2, OutputIdState.getID2, List.lookup]

/-- C2 witness: for a polymorphic type at pointer 5 on a fresh state, getId
after generateId returns the assigned ID. -/
theorem generateId_getId_consistent_witness :
    getId ⟨0, true⟩ 5 (generateId ⟨0, true⟩ 5 ⟨[], [], 0⟩).2
      = (generateId ⟨0, true⟩ 5 ⟨[], [], 0⟩).1 :=
  (generateId_getId_consistent ⟨[], [], 0⟩ ⟨0, true⟩ 5 0 1 (by decide)).1

/-- C5: on the binary backend save(t) appends exactly the sizeof(t) raw
in-memory bytes of the primitive to the buffer and serialize_blob appends
exactly its len bytes; load(t) and the loading serialize_blob read exactly
that many bytes back at the matching stream position, returning precisely
the saved bytes and advancing the cursor past them — load after save is the
identity when the lengths agree. -/
theorem mem_save_load_roundtrip (a : MemOutputArchive) (t pre post : List Nat) :
    (a.save t).buffer.data = a.buffer.data ++ t ∧
    (a.serialize_blob t).buffer.data = a.buffer.data ++ t ∧
    MemInputArchive.load ⟨⟨pre ++ t ++ post, pre.length⟩⟩ t.length
        = (t, ⟨⟨pre ++ t ++ post, pre.length + t.length⟩⟩) ∧
    MemInputArchive.serialize_blob ⟨⟨pre ++ t ++ post, pre.length⟩⟩ t.length
        = (t, ⟨⟨pre ++ t ++ post, pre.length + t.length⟩⟩) := by
  refine ⟨?_, ?_, ?_, ?_⟩
  · rw [MemOutputArchive.save, put_eq]
  · rw [MemOutputArchive.serialize_blob, put_eq]
  · exact get_exact pre t post
  · exact get_exact pre t post

theorem skipSection_true_eq (a : MemInputArchive) :
    a.skipSection true = ⟨(a.get 4).2.buffer.skip (decodeWord (a.get 4).1)⟩ :=
  rfl

theorem skipSection_false_eq (a : MemInputArchive) :
    a.skipSection false = (a.get 4).2 :=
  rfl

theorem endSection_concat (dataL ss2 : List Nat) (bp : Nat) :
    (⟨⟨dataL⟩, ss2 ++ [bp]⟩ : MemOutputArchive).endSection
      = ⟨(OutputBuffer.mk dataL).insertAt (bp - 4) (encodeWord (dataL.length - bp)), ss2⟩ := by
  simp [MemOutputArchive.endSection, OutputBuffer.getPosition]

/-- C3: on the binary backend, beginSection writes a 4-byte placeholder length
and records the offset just past it; the matching endSection (sections close
LIFO) back-patches the placeholder with the number of bytes written between
the two calls, restoring the section stack. Consequently on load,
skipSection(true) decodes the stored length and leaves the cursor exactly at
the first byte after the section: its resulting archive state equals the
state after skipSection(false) followed by reading the whole section body,
so every field beyond the section decodes to the same value either way. -/
theorem memSection_backpatch_and_skip_equiv
    (pre ss : List Nat) (writes : List (List Nat))
    (hlen : writes.flatten.length < 2 ^ 32) :
    (((⟨⟨pre⟩, ss⟩ : MemOutputArchive).beginSection.saveAll writes).endSection).buffer.data
        = pre ++ encodeWord writes.flatten.length ++ writes.flatten ∧
    (((⟨⟨pre⟩, ss⟩ : MemOutputArchive).beginSection.saveAll writes).endSection).openSections
        = ss ∧
    (∀ post : List Nat,
      MemInputArchive.skipSection
          ⟨⟨pre ++ encodeWord writes.flatten.length ++ writes.flatten ++ post, pre.length⟩⟩ true
        = ((MemInputArchive.skipSection
            ⟨⟨pre ++ encodeWord writes.flatten.length ++ writes.flatten ++ post,
              pre.length⟩⟩ false).get writes.flatten.length).2 ∧
      (MemInputArchive.skipSection
          ⟨⟨pre ++ encodeWord writes.flatten.length ++ writes.flatten ++ post,
            pre.length⟩⟩ true).buffer.pos
        = pre.length + 4 + writes.flatten.length) := by
  have h1 : (⟨⟨pre⟩, ss⟩ : MemOutputArchive).beginSection
      = ⟨⟨pre ++ encodeWord 0⟩, ss ++ [pre.length + 4]⟩ := by
    simp [MemOutputArchive.beginSection, MemOutputArchive.saveWord, MemOutputArchive.save,
      put_eq, OutputBuffer.getPosition, encodeWord_length]
  have h2 : (⟨⟨pre⟩, ss⟩ : MemOutputArchive).beginSection.saveAll writes
      = ⟨⟨pre ++ encodeWord 0 ++ writes.flatten⟩, ss ++ [pre.length + 4]⟩ := by
    rw [h1, saveAll_eq]
  have htake : (pre ++ encodeWord 0 ++ writes.flatten).take pre.length = pre := by
    rw [List.append_assoc]
    exact List.take_left pre _
  have hdrop : (pre ++ encodeWord 0 ++ writes.flatten).drop (pre.length + 4) = writes.flatten := by
    have h4 : pre.length + 4 = (pre ++ encodeWord 0).length := by
      simp [encodeWord_length]
    rw [h4]
    exact List.drop_left _ _
  have hskipval : (pre ++ encodeWord 0 ++ writes.flatten).length - (pre.length + 4)
      = writes.flatten.length := by
    simp [encodeWord_length]
    omega
  have hbp : pre.length + 4 - 4 = pre.length := by
    omega
  have h3 : (⟨⟨pre ++ encodeWord 0 ++ writes.flatten⟩,
        ss ++ [pre.length + 4]⟩ : MemOutputArchive).endSection
      = ⟨⟨pre ++ encodeWord writes.flatten.length ++ writes.flatten⟩, ss⟩ := by
    rw [endSection_concat, hskipval, hbp]
    simp only [OutputBuffer.insertAt, encodeWord_length, htake]
    rw [hdrop]
  refine ⟨by rw [h2, h3], by rw [h2, h3], ?_⟩
  intro post
  have hget4 : MemInputArchive.get
        ⟨⟨pre ++ encodeWord writes.flatten.length ++ writes.flatten ++ post, pre.length⟩⟩ 4
      = (encodeWord writes.flatten.length,
         ⟨⟨pre ++ encodeWord writes.flatten.length ++ writes.flatten ++ post,
           pre.length + 4⟩⟩) := by
    have h5 := get_exact pre (encodeWord writes.flatten.length) (writes.flatten ++ post)
    rw [encodeWord_length] at h5
    simpa [List.append_assoc] using h5
  have hgetL : MemInputArchive.get
        ⟨⟨pre ++ encodeWord writes.flatten.length ++ writes.flatten ++ post,
          pre.length + 4⟩⟩ writes.flatten.length
      = (writes.flatten,
         ⟨⟨pre ++ encodeWord writes.flatten.length ++ writes.flatten ++ post,
           pre.length + 4 + writes.flatten.length⟩⟩) := by
    have h6 := get_exact (pre ++ encodeWord writes.flatten.length) writes.flatten post
    have hl2 : (pre ++ encodeWord writes.flatten.length).length = pre.length + 4 := by
      simp [encodeWord_length]
    rw [hl2] at h6
    simpa [List.append_assoc] using h6
  constructor
  · simp only [skipSection_true_eq, skipSection_false_eq, hget4, hgetL,
      decodeWord_encodeWord, Nat.mod_eq_of_lt hlen, InputBuffer.skip]
  · simp only [skipSection_true_eq, hget4, decodeWord_encodeWord,
      Nat.mod_eq_of_lt hlen, InputBuffer.skip]

/-- C3 witness: a section whose body is the three bytes 1, 2, 3 written on an
empty archive: the final buffer is the back-patched length image followed by
the body. -/
theorem memSection_backpatch_and_skip_equiv_witness :
    (((⟨⟨[]⟩, []⟩ : MemOutputArchive).beginSection.saveAll [[1, 2, 3]]).endSection).buffer.data
      = [] ++ encodeWord [[1, 2, 3]].flatten.length ++ [[1, 2, 3]].flatten :=
  (memSection_backpatch_and_skip_equiv [] [] [[1, 2, 3]] (by decide)).1

end openmsx
